import Mathlib

/-!
Verification development for the VIOLIN_MVP_V2 real-time audio streaming
pipeline (CLIENT_APP_VARIABLES.js, embedded CLIENT_AUDIO_STREAM_MASTER
module).  Each JavaScript function of the streaming core is shallowly
embedded as an executable Lean definition; theorems settle the spec's
testable properties against those definitions.
-/

namespace ViolinMVP

/-! ## Base64 codec (BASE64_TO_BYTES, CLIENT_APP_VARIABLES.js lines 280-305) -/

/-- The base64 alphabet string from the source:
ABCDEFGHIJKLMNOPQRSTUVWXYZabcdefghijklmnopqrstuvwxyz0123456789+/ -/
def b64Alphabet : List Char :=
  "ABCDEFGHIJKLMNOPQRSTUVWXYZabcdefghijklmnopqrstuvwxyz0123456789+/".toList

/-- Models the 256-entry lookup table built at the top of BASE64_TO_BYTES:
alphabet characters map to their index, every other character (including
the padding character) maps to the zero-initialized default 0. -/
def charToSixbit (c : Char) : Nat :=
  if b64Alphabet.contains c then b64Alphabet.indexOf c else 0

/-- Index into the base64 alphabet.  Used by the encoder model only. -/
def sixbitToChar (v : Nat) : Char :=
  b64Alphabet.getD v 'A'

/-- Models the body of the decode loop of BASE64_TO_BYTES for one group of
four input characters (loop steps i in increments of 4): the 24-bit chunk
is assembled from the four 6-bit lookups, the first output byte is written
unconditionally, the second unless the third character is the padding
character, the third unless the fourth character is the padding character. -/
def b64DecodeGroup (c1 c2 c3 c4 : Char) : List Nat :=
  let enc1 := charToSixbit c1
  let enc2 := charToSixbit c2
  let enc3 := charToSixbit c3
  let enc4 := charToSixbit c4
  let chunk := (enc1 <<< 18) ||| (enc2 <<< 12) ||| ((enc3 &&& 63) <<< 6) ||| (enc4 &&& 63)
  [(chunk >>> 16) &&& 255]
    ++ (if c3 = '=' then [] else [(chunk >>> 8) &&& 255])
    ++ (if c4 = '=' then [] else [chunk &&& 255])

/-- The decode loop of BASE64_TO_BYTES over the whole input, four
characters per iteration.  A validly padded base64 string has length
divisible by 4, so the loop consumes it exactly in groups of four. -/
def b64DecodeGroups : List Char → List Nat
  | c1 :: c2 :: c3 :: c4 :: rest => b64DecodeGroup c1 c2 c3 c4 ++ b64DecodeGroups rest
  | _ => []

/-- Models the padding adjustment of BASE64_TO_BYTES: subtract 2 if the
input ends in double padding, else 1 if it ends in single padding, else 0.
Matching on the reversed list inspects exactly the last two characters,
as the endsWith tests in the source do.  The check is split in two:
b64PadOfRev inspects the last characters via the reversed list. -/
def b64PadOfRev : List Char → Nat
  | '=' :: '=' :: _ => 2
  | '=' :: _ => 1
  | _ => 0

/-- The padding adjustment applied to bufferLength in BASE64_TO_BYTES. -/
def b64PadLen (s : List Char) : Nat :=
  b64PadOfRev s.reverse

/-- BASE64_TO_BYTES from CLIENT_APP_VARIABLES.js lines 280-305.  The
output Uint8Array has size bufferLength = floor(length * 0.75) minus the
padding adjustment; writes are sequential, writes past the end of a typed
array are dropped, and unwritten cells stay zero — modelled by appending
zero fill and truncating to bufferLength. -/
def BASE64_TO_BYTES (b64 : List Char) : List Nat :=
  let bufferLength := b64.length * 3 / 4 - b64PadLen b64
  (b64DecodeGroups b64 ++ List.replicate bufferLength 0).take bufferLength

/-- Modelled from the spec: the repository contains no base64 encoder (the
platform file-system API produces the base64 text), so the standard
RFC 4648 base64 encoding named by the spec is defined here: each group of
three bytes becomes four alphabet characters, a trailing single byte
becomes two characters plus double padding, a trailing pair of bytes
becomes three characters plus single padding. -/
def b64EncodeBytes : List Nat → List Char
  | [] => []
  | [b1] => [sixbitToChar (b1 / 4), sixbitToChar (b1 % 4 * 16), '=', '=']
  | [b1, b2] => [sixbitToChar (b1 / 4), sixbitToChar (b1 % 4 * 16 + b2 / 16),
      sixbitToChar (b2 % 16 * 4), '=']
  | b1 :: b2 :: b3 :: rest =>
      sixbitToChar (b1 / 4) :: sixbitToChar (b1 % 4 * 16 + b2 / 16) ::
      sixbitToChar (b2 % 16 * 4 + b3 / 64) :: sixbitToChar (b3 % 64) :: b64EncodeBytes rest

/-! ## Resend buffer (RESEND_BUFFER_PUT / RESEND_BUFFER_GET, lines 267-277) -/

/-- RESEND_BUFFER_SIZE = 128 from the source. -/
def RESEND_BUFFER_SIZE : Nat := 128

/-- The stored header of a resend-buffer entry: the tick stores only the
frame duration (line 695). -/
structure StoredHeader where
  FRAME_DURATION_IN_MS : Nat
deriving Repr, DecidableEq

/-- One resend-buffer entry: the stored header and the exact payload bytes
that were transmitted (lines 694-697). -/
structure ResendEntry where
  header : StoredHeader
  bytes : List Nat
deriving Repr, DecidableEq

/-- A JS Map is an insertion-ordered association list with unique keys.
Map.set updates an existing key in place (keeping its position) and
appends a new key at the end. -/
def mapSet (m : List (Nat × ResendEntry)) (k : Nat) (v : ResendEntry) :
    List (Nat × ResendEntry) :=
  if m.any (fun p => p.1 == k) then m.map (fun p => if p.1 == k then (k, v) else p)
  else m ++ [(k, v)]

/-- Map.delete removes the (unique) entry with the given key. -/
def mapDelete (m : List (Nat × ResendEntry)) (k : Nat) : List (Nat × ResendEntry) :=
  m.filter (fun p => !(p.1 == k))

/-- RESEND_BUFFER_PUT (lines 268-274): set the key, then if the size
exceeds RESEND_BUFFER_SIZE delete the oldest key — the first key in the
insertion-ordered map. -/
def RESEND_BUFFER_PUT (m : List (Nat × ResendEntry)) (frameNo : Nat) (entry : ResendEntry) :
    List (Nat × ResendEntry) :=
  let m1 := mapSet m frameNo entry
  if RESEND_BUFFER_SIZE < m1.length then
    match m1 with
    | [] => m1
    | oldest :: _ => mapDelete m1 oldest.1
  else m1

/-- RESEND_BUFFER_GET (lines 275-277): Map.get returns the entry or an
explicit not-found signal (undefined), modelled as Option. -/
def RESEND_BUFFER_GET (m : List (Nat × ResendEntry)) (frameNo : Nat) : Option ResendEntry :=
  (m.find? (fun p => p.1 == frameNo)).map (fun p => p.2)

/-! ## Frame transmission (SEND_FRAME_PAIR, lines 375-401) -/

/-- The metadata header transmitted before the binary payload
(lines 379-385). -/
structure FrameHeader where
  MESSAGE_TYPE : String
  RECORDING_ID : String
  FRAME_NO : String
  FRAME_DURATION_IN_MS : Nat
  BYTES_LEN : Nat
deriving Repr, DecidableEq

/-- One transmitted frame: the header write followed by the binary write.
frameNo is the numeric argument passed to SEND_FRAME_PAIR (the header
carries its string form). -/
structure SentFrame where
  frameNo : Nat
  header : FrameHeader
  bytes : List Nat
deriving Repr, DecidableEq

/-- SEND_FRAME_PAIR (lines 375-401): builds the header with MESSAGE_TYPE
FRAME, the recording id, the frame number as a string, the frame duration
and the byte length, then sends the header and the raw bytes.  Modelled as
the transmitted message pair. -/
def SEND_FRAME_PAIR (recordingId : String) (frameNo : Nat) (frameMs : Nat)
    (bytes : List Nat) : SentFrame :=
  { frameNo := frameNo,
    header :=
      { MESSAGE_TYPE := "FRAME", RECORDING_ID := recordingId, FRAME_NO := toString frameNo,
        FRAME_DURATION_IN_MS := frameMs, BYTES_LEN := bytes.length },
    bytes := bytes }

/-- The ACK branch of WS.onmessage (lines 605-618): each listed missing
frame number is looked up in the resend buffer; a hit is retransmitted via
SEND_FRAME_PAIR with the stored duration and stored bytes, a miss is
skipped silently and nothing is sent for it. -/
def handleAckResend (recordingId : String) (buf : List (Nat × ResendEntry))
    (missing : List Nat) : List SentFrame :=
  missing.filterMap (fun m =>
    (RESEND_BUFFER_GET buf m).map (fun entry =>
      SEND_FRAME_PAIR recordingId m entry.header.FRAME_DURATION_IN_MS entry.bytes))

/-! ## The capture/send tick loop (TICK, lines 662-712) -/

/-- The module-level streaming state touched by TICK: the STREAMING flag,
whether the socket is non-null and open (readyState 1), FRAME_NO,
COUNTDOWN_REMAINING_MS, BOUNDARY_SENT and the resend buffer. -/
structure StreamState where
  STREAMING : Bool
  wsReady : Bool
  FRAME_NO : Nat
  COUNTDOWN_REMAINING_MS : Int
  BOUNDARY_SENT : Bool
  RESEND_BUFFER : List (Nat × ResendEntry)
deriving Repr, DecidableEq

/-- The environment of one tick: the captured slice (none when
RECORD_MICRO_CHUNK returned null because of the busy guard or a stop
race), whether the decode step (READ_FILE_AS_UINT8) throws, and whether
the send step (SEND_FRAME_PAIR) throws. -/
structure TickInput where
  captured : Option (List Nat)
  decodeThrows : Bool
  sendThrows : Bool
deriving Repr, DecidableEq

/-- The observable outcome of one tick: the new state, the frame
transmitted by this tick if any, and how many deleteAsync calls were made
for this slice's storage artifact. -/
structure TickResult where
  state : StreamState
  sent : Option SentFrame
  deletes : Nat
deriving Repr, DecidableEq

/-- TICK (lines 662-712).  Guard: not streaming or socket unusable returns
immediately.  A null capture returns (the finally clause only re-arms).  A
decode throw jumps to the catch block — no deleteAsync runs for the slice.
A countdown slice decrements COUNTDOWN_REMAINING_MS by FRAME_MS, flips
BOUNDARY_SENT and resets FRAME_NO to 1 when it reaches zero or below,
deletes the artifact and returns without transmitting or buffering.
Otherwise the slice is a real frame: it is inserted into the resend buffer
under the current FRAME_NO, FRAME_NO is incremented, the pair is
transmitted, and the artifact is deleted — unless the send throws, in
which case the catch block is reached and no delete runs. -/
def TICK (FRAME_MS : Nat) (RECORDING_ID : String) (s : StreamState) (inp : TickInput) :
    TickResult :=
  if ¬(s.STREAMING = true ∧ s.wsReady = true) then { state := s, sent := none, deletes := 0 }
  else
    match inp.captured with
    | none => { state := s, sent := none, deletes := 0 }
    | some audioBytes =>
      if inp.decodeThrows = true then { state := s, sent := none, deletes := 0 }
      else if s.BOUNDARY_SENT = false ∧ 0 < s.COUNTDOWN_REMAINING_MS then
        let cd := s.COUNTDOWN_REMAINING_MS - FRAME_MS
        let s1 := { s with COUNTDOWN_REMAINING_MS := cd }
        let s2 := if cd ≤ 0 then { s1 with BOUNDARY_SENT := true, FRAME_NO := 1 } else s1
        { state := s2, sent := none, deletes := 1 }
      else
        let s0 := if s.BOUNDARY_SENT = false then { s with BOUNDARY_SENT := true } else s
        let frameNoToSend := s0.FRAME_NO
        let entry : ResendEntry :=
          { header := { FRAME_DURATION_IN_MS := FRAME_MS }, bytes := audioBytes }
        let s1 := { s0 with
          FRAME_NO := frameNoToSend + 1
          RESEND_BUFFER := RESEND_BUFFER_PUT s0.RESEND_BUFFER frameNoToSend entry }
        if inp.sendThrows = true then { state := s1, sent := none, deletes := 0 }
        else { state := s1,
               sent := some (SEND_FRAME_PAIR RECORDING_ID frameNoToSend FRAME_MS audioBytes),
               deletes := 1 }

/-- Run a sequence of ticks, accumulating the transmitted frames in
order. -/
def runTicks (FRAME_MS : Nat) (RECORDING_ID : String) :
    StreamState → List TickInput → StreamState × List SentFrame
  | s, [] => (s, [])
  | s, inp :: rest =>
    let r := TICK FRAME_MS RECORDING_ID s inp
    let next := runTicks FRAME_MS RECORDING_ID r.state rest
    (next.1, r.sent.toList ++ next.2)

/-- Inputs for a run in which every capture succeeds and nothing throws. -/
def goodInputs (payloads : List (List Nat)) : List TickInput :=
  payloads.map (fun bs => { captured := some bs, decodeThrows := false, sendThrows := false })

/-! ## Session start parameters (START_STREAMING_WS, lines 639-642) -/

/-- MS_PER_BEAT = 60000 / max(1, bpm) (line 639), as an exact rational. -/
def MS_PER_BEAT (bpm : Nat) : ℚ :=
  60000 / max 1 (bpm : ℚ)

/-- COUNTDOWN_REMAINING_MS = max(0, round(countdownBeats * MS_PER_BEAT))
(line 640).  JS Math.round rounds half toward positive infinity, which is
Mathlib round. -/
def initialCountdownMs (countdownBeats bpm : Nat) : Int :=
  max 0 (round ((countdownBeats : ℚ) * MS_PER_BEAT bpm))

/-- The streaming state right after START_STREAMING_WS initializes the
counters (lines 639-642): FRAME_NO = 1, BOUNDARY_SENT iff the countdown is
already zero, empty resend buffer, socket open, streaming. -/
def startState (countdownBeats bpm : Nat) : StreamState :=
  { STREAMING := true, wsReady := true, FRAME_NO := 1,
    COUNTDOWN_REMAINING_MS := initialCountdownMs countdownBeats bpm,
    BOUNDARY_SENT := initialCountdownMs countdownBeats bpm == 0,
    RESEND_BUFFER := [] }

/-- The number of countdown slices the tick loop discards: one per
iteration while the remaining countdown is positive, decremented by
FRAME_MS each time (lines 674-684). -/
def discardCount (FRAME_MS : Nat) (cd : Int) : Nat :=
  if h : 0 < cd ∧ 0 < FRAME_MS then discardCount FRAME_MS (cd - FRAME_MS) + 1 else 0
termination_by cd.toNat
decreasing_by
  omega

/-! ## Single-flight tick scheduling (ARM_NEXT, lines 653-659) -/

/-- The scheduler state: whether a next-tick timer is armed
(the nullable handle is non-null), plus a count of setTimeout calls
actually made. -/
structure SchedulerState where
  nextTimeoutArmed : Bool
  scheduledCount : Nat
deriving Repr, DecidableEq

/-- ARM_NEXT (lines 653-659): a reschedule request while a next tick is
already armed returns immediately and schedules nothing; otherwise exactly
one timer is armed. -/
def ARM_NEXT (s : SchedulerState) : SchedulerState :=
  if s.nextTimeoutArmed then s
  else { nextTimeoutArmed := true, scheduledCount := s.scheduledCount + 1 }

/-- State for the RECORD_MICRO_CHUNK busy guard. -/
structure RecorderState where
  isChunking : Bool
  capturesTaken : Nat
deriving Repr, DecidableEq

/-- The busy guard of RECORD_MICRO_CHUNK (lines 317-323 and 356-358): a
call while a capture is in progress returns null immediately without
recording; otherwise the body runs with the flag set and the finally
clause clears it.  The uri argument is the platform-supplied capture
result. -/
def RECORD_MICRO_CHUNK (s : RecorderState) (uri : Option String) :
    RecorderState × Option String :=
  if s.isChunking then (s, none)
  else ({ isChunking := false, capturesTaken := s.capturesTaken + 1 }, uri)

/-! ## Session controller (START_STREAMING_WS lines 508-716,
STOP_STREAMING_WS lines 718-755) -/

/-- Outcomes of the effectful steps of session start, in source order:
URL construction, health probe, microphone permission, recording id
lookup, echo preflight, primary stream open (with retries). -/
structure StartEnv where
  wsUrlOk : Bool
  healthOk : Bool
  audioPermOk : Bool
  recordingIdSet : Bool
  echoUrlOk : Bool
  echoOk : Bool
  streamOk : Bool
deriving Repr, DecidableEq

/-- Result of a START_STREAMING_WS call: the final STREAMING flag, whether
the primary stream connection was attempted, and whether an echo preflight
failure was logged as a warning. -/
structure StartResult where
  STREAMING : Bool
  attemptedStreamOpen : Bool
  echoFailureWarned : Bool
deriving Repr, DecidableEq

/-- START_STREAMING_WS control skeleton (lines 508-716).  Already
streaming: return at once (line 510).  Missing WS URL, audio
permission/mode error, or missing RECORDING_ID: clear STREAMING and abort.
The health probe failure only warns.  The echo preflight (lines 563-572)
is wrapped in try/catch: its failure is logged and the primary stream
connection is attempted anyway.  Primary open failure clears STREAMING and
aborts; on success the session is streaming. -/
def START_STREAMING_WS (streamingNow : Bool) (env : StartEnv) : StartResult :=
  if streamingNow then
    { STREAMING := streamingNow, attemptedStreamOpen := false, echoFailureWarned := false }
  else if ¬env.wsUrlOk then
    { STREAMING := false, attemptedStreamOpen := false, echoFailureWarned := false }
  else if ¬env.audioPermOk then
    { STREAMING := false, attemptedStreamOpen := false, echoFailureWarned := false }
  else if ¬env.recordingIdSet then
    { STREAMING := false, attemptedStreamOpen := false, echoFailureWarned := false }
  else
    let warned := env.echoUrlOk && !env.echoOk
    if env.streamOk then
      { STREAMING := true, attemptedStreamOpen := true, echoFailureWarned := warned }
    else
      { STREAMING := false, attemptedStreamOpen := true, echoFailureWarned := warned }

/-- Result of a STOP_STREAMING_WS call: the final STREAMING flag and
whether the teardown body (timer cancel, recorder stop, STOP message,
socket close, buffer clear) ran. -/
structure StopResult where
  STREAMING : Bool
  performedTeardown : Bool
deriving Repr, DecidableEq

/-- STOP_STREAMING_WS control skeleton (lines 718-755): not streaming
returns at once with no teardown and no error; otherwise the flag is
cleared and the teardown body runs. -/
def STOP_STREAMING_WS (streamingNow : Bool) : StopResult :=
  if ¬streamingNow then { STREAMING := streamingNow, performedTeardown := false }
  else { STREAMING := false, performedTeardown := true }

/-! ## Connection opener (WS_OPEN_WITH_TIMEOUT, lines 404-456) -/

/-- How the open promise can settle. -/
inductive WsOpenOutcome
  | resolvedWs
  | rejectedTimeout
  | rejectedClosedBeforeOpen
deriving Repr, DecidableEq

/-- The completion signals that can fire while the opener waits: the
platform open event, an inbound message with the given text (empty string
for non-text data), the 50ms ready-state poll observing the given ready
state, the timeout timer, and the close event. -/
inductive WsOpenEvent
  | openEvt
  | messageEvt (txt : String)
  | pollFires (readyStateIsOpen : Bool)
  | timeoutFires
  | closeEvt
deriving Repr, DecidableEq

/-- The opener's promise state: the opened latch, whether the poll
interval and the timeout timer were cleared and the socket handlers
detached, the settled result, and a count of resolve/reject calls. -/
structure WsOpenState where
  opened : Bool
  pollCleared : Bool
  timerCleared : Bool
  handlersDetached : Bool
  result : Option WsOpenOutcome
  settleCount : Nat
deriving Repr, DecidableEq

/-- The finish helper (lines 410-417): a second call is a no-op thanks to
the opened latch; the first call clears the timeout timer and the poll
interval, detaches all four socket handlers, and settles the promise. -/
def wsFinish (s : WsOpenState) (oc : WsOpenOutcome) : WsOpenState :=
  if s.opened then s
  else { opened := true, pollCleared := true, timerCleared := true, handlersDetached := true,
         result := some oc, settleCount := s.settleCount + 1 }

/-- Dispatch of one platform event against the opener (lines 427-455).
Detached handlers and cleared timers no longer run; onopen finishes with
success; onmessage finishes with success when the text is an echo banner,
a stream banner, or any non-empty text; the poll finishes with success
when it observes readyState 1; the timeout finishes with failure; onclose
finishes with failure when the promise has not opened; onerror does
nothing. -/
def wsOpenStep (s : WsOpenState) (e : WsOpenEvent) : WsOpenState :=
  match e with
  | .openEvt => if s.handlersDetached then s else wsFinish s .resolvedWs
  | .messageEvt txt =>
      if s.handlersDetached then s
      else if txt.startsWith "echo-server" || txt.startsWith "stream-server"
          || decide (0 < txt.length) then wsFinish s .resolvedWs
      else s
  | .pollFires rs =>
      if s.pollCleared then s
      else if rs then wsFinish s .resolvedWs else s
  | .timeoutFires => if s.timerCleared then s else wsFinish s .rejectedTimeout
  | .closeEvt =>
      if s.handlersDetached then s
      else if s.opened = false then wsFinish s .rejectedClosedBeforeOpen else s

/-- The opener's initial state after construction. -/
def wsOpenInit : WsOpenState :=
  { opened := false, pollCleared := false, timerCleared := false, handlersDetached := false,
    result := none, settleCount := 0 }

/-- Run the opener against a sequence of platform events. -/
def wsOpenRun (events : List WsOpenEvent) : WsOpenState :=
  events.foldl wsOpenStep wsOpenInit

/-- Whether an event is a completion signal: it would settle the promise
if it arrived first. -/
def isCompletionSignal : WsOpenEvent → Bool
  | .openEvt => true
  | .messageEvt txt => txt.startsWith "echo-server" || txt.startsWith "stream-server"
      || decide (0 < txt.length)
  | .pollFires rs => rs
  | .timeoutFires => true
  | .closeEvt => true

/-- Generic helper: the last n elements of a list. -/
def lastN {α : Type} (n : Nat) (l : List α) : List α :=
  l.drop (l.length - n)

/-! ## Theorems: base64 round-trip (claim C9) -/

theorem charToSixbit_sixbitToChar : ∀ v : Nat, v < 64 → charToSixbit (sixbitToChar v) = v := by
  decide

theorem sixbitToChar_ne_pad : ∀ v : Nat, v < 64 → sixbitToChar v ≠ '=' := by
  decide




theorem lor_disjoint (k : Nat) : ∀ a b : Nat, b < 2 ^ k → a * 2 ^ k ||| b = a * 2 ^ k + b := by
  induction k with
  | zero =>
    intro a b hb
    interval_cases b
    simp
  | succ k ih =>
    intro a b hb
    have hb2 : b / 2 < 2 ^ k := by omega
    have h1 : a * 2 ^ (k + 1) = Nat.bit false (a * 2 ^ k) := by
      simp [Nat.bit]
      ring
    have h2 : b = Nat.bit (decide (b % 2 = 1)) (b / 2) := by
      rcases Nat.mod_two_eq_zero_or_one b with h | h <;> simp [Nat.bit, h] <;> omega
    rw [h1, h2, Nat.lor_bit, ih _ _ hb2]
    rcases Nat.mod_two_eq_zero_or_one b with h | h <;> simp [Nat.bit, h] <;> ring_nf <;> omega

theorem and255_eq_mod (x : Nat) : x &&& 255 = x % 256 := by
  have := Nat.and_pow_two_sub_one_eq_mod x 8
  norm_num at this
  exact this

theorem and63_eq_mod (x : Nat) : x &&& 63 = x % 64 := by
  have := Nat.and_pow_two_sub_one_eq_mod x 6
  norm_num at this
  exact this

theorem charToSixbit_pad : charToSixbit '=' = 0 := by decide

theorem b64Chunk_eq (v1 v2 v3 v4 : Nat) (h1 : v1 < 64) (h2 : v2 < 64) (h3 : v3 < 64)
    (h4 : v4 < 64) :
    (v1 <<< 18) ||| (v2 <<< 12) ||| ((v3 &&& 63) <<< 6) ||| (v4 &&& 63)
      = v1 * 2 ^ 18 + v2 * 2 ^ 12 + v3 * 2 ^ 6 + v4 := by
  rw [and63_eq_mod v3, and63_eq_mod v4, Nat.mod_eq_of_lt h3, Nat.mod_eq_of_lt h4]
  rw [Nat.lor_assoc, Nat.lor_assoc]
  rw [Nat.shiftLeft_eq, Nat.shiftLeft_eq, Nat.shiftLeft_eq]
  rw [lor_disjoint 6 v3 v4 (by omega)]
  rw [lor_disjoint 12 v2 (v3 * 2 ^ 6 + v4) (by omega)]
  rw [lor_disjoint 18 v1 (v2 * 2 ^ 12 + (v3 * 2 ^ 6 + v4)) (by omega)]
  ring


theorem b64DecodeGroup_full (b1 b2 b3 : Nat) (h1 : b1 < 256) (h2 : b2 < 256) (h3 : b3 < 256) :
    b64DecodeGroup (sixbitToChar (b1 / 4)) (sixbitToChar (b1 % 4 * 16 + b2 / 16))
      (sixbitToChar (b2 % 16 * 4 + b3 / 64)) (sixbitToChar (b3 % 64)) = [b1, b2, b3] := by
  have e1 := charToSixbit_sixbitToChar (b1 / 4) (by omega)
  have e2 := charToSixbit_sixbitToChar (b1 % 4 * 16 + b2 / 16) (by omega)
  have e3 := charToSixbit_sixbitToChar (b2 % 16 * 4 + b3 / 64) (by omega)
  have e4 := charToSixbit_sixbitToChar (b3 % 64) (by omega)
  have n3 := sixbitToChar_ne_pad (b2 % 16 * 4 + b3 / 64) (by omega)
  have n4 := sixbitToChar_ne_pad (b3 % 64) (by omega)
  simp only [b64DecodeGroup, e1, e2, e3, e4, if_neg n3, if_neg n4]
  rw [b64Chunk_eq _ _ _ _ (by omega) (by omega) (by omega) (by omega)]
  rw [Nat.shiftRight_eq_div_pow, Nat.shiftRight_eq_div_pow]
  rw [and255_eq_mod, and255_eq_mod, and255_eq_mod]
  simp
  omega

theorem b64DecodeGroup_pad2 (b1 : Nat) (h1 : b1 < 256) :
    b64DecodeGroup (sixbitToChar (b1 / 4)) (sixbitToChar (b1 % 4 * 16)) '=' '=' = [b1] := by
  have e1 := charToSixbit_sixbitToChar (b1 / 4) (by omega)
  have e2 := charToSixbit_sixbitToChar (b1 % 4 * 16) (by omega)
  simp only [b64DecodeGroup, e1, e2, charToSixbit_pad, if_pos rfl]
  rw [b64Chunk_eq _ _ _ _ (by omega) (by omega) (by omega) (by omega)]
  rw [Nat.shiftRight_eq_div_pow, and255_eq_mod]
  simp
  omega

theorem b64DecodeGroup_pad1 (b1 b2 : Nat) (h1 : b1 < 256) (h2 : b2 < 256) :
    b64DecodeGroup (sixbitToChar (b1 / 4)) (sixbitToChar (b1 % 4 * 16 + b2 / 16))
      (sixbitToChar (b2 % 16 * 4)) '=' = [b1, b2] := by
  have e1 := charToSixbit_sixbitToChar (b1 / 4) (by omega)
  have e2 := charToSixbit_sixbitToChar (b1 % 4 * 16 + b2 / 16) (by omega)
  have e3 := charToSixbit_sixbitToChar (b2 % 16 * 4) (by omega)
  have n3 := sixbitToChar_ne_pad (b2 % 16 * 4) (by omega)
  simp only [b64DecodeGroup, e1, e2, e3, charToSixbit_pad, if_neg n3, if_pos rfl]
  rw [b64Chunk_eq _ _ _ _ (by omega) (by omega) (by omega) (by omega)]
  rw [Nat.shiftRight_eq_div_pow, Nat.shiftRight_eq_div_pow]
  rw [and255_eq_mod, and255_eq_mod]
  simp
  omega

theorem b64DecodeGroups_encode : ∀ b : List Nat, (∀ x ∈ b, x < 256) →
    b64DecodeGroups (b64EncodeBytes b) = b := by
  intro b
  induction b using b64EncodeBytes.induct with
  | case1 => intro _; rfl
  | case2 b1 =>
    intro h
    simp only [b64EncodeBytes, b64DecodeGroups]
    rw [b64DecodeGroup_pad2 b1 (h b1 (by simp))]
    rfl
  | case3 b1 b2 =>
    intro h
    simp only [b64EncodeBytes, b64DecodeGroups]
    rw [b64DecodeGroup_pad1 b1 b2 (h b1 (by simp)) (h b2 (by simp))]
    rfl
  | case4 b1 b2 b3 rest ih =>
    intro h
    simp only [b64EncodeBytes, b64DecodeGroups]
    rw [b64DecodeGroup_full b1 b2 b3 (h b1 (by simp)) (h b2 (by simp)) (h b3 (by simp))]
    rw [ih (fun x hx => h x (by simp [hx]))]
    rfl

theorem b64EncodeBytes_length : ∀ b : List Nat,
    (b64EncodeBytes b).length = 4 * ((b.length + 2) / 3) := by
  intro b
  induction b using b64EncodeBytes.induct with
  | case1 => rfl
  | case2 b1 => simp [b64EncodeBytes]
  | case3 b1 b2 => simp [b64EncodeBytes]
  | case4 b1 b2 b3 rest ih =>
    simp only [b64EncodeBytes, List.length_cons, ih]
    omega

theorem b64PadOfRev_two (t : List Char) : b64PadOfRev ('=' :: '=' :: t) = 2 := rfl

theorem b64PadOfRev_one (c : Char) (t : List Char) (h : c ≠ '=') :
    b64PadOfRev ('=' :: c :: t) = 1 := by
  unfold b64PadOfRev
  split
  · simp_all
  · rfl
  · simp_all

theorem b64PadOfRev_zero (c : Char) (t : List Char) (h : c ≠ '=') :
    b64PadOfRev (c :: t) = 0 := by
  unfold b64PadOfRev
  split
  · simp_all
  · simp_all
  · rfl

theorem b64PadOfRev_cons2 (a b : Char) (t t' : List Char) :
    b64PadOfRev (a :: b :: t) = b64PadOfRev (a :: b :: t') := by
  rcases eq_or_ne a '=' with ha | ha
  · subst ha
    rcases eq_or_ne b '=' with hb | hb
    · subst hb
      rw [b64PadOfRev_two, b64PadOfRev_two]
    · rw [b64PadOfRev_one b t hb, b64PadOfRev_one b t' hb]
  · rw [b64PadOfRev_zero a _ ha, b64PadOfRev_zero a _ ha]

theorem b64PadLen_encode : ∀ b : List Nat,
    b64PadLen (b64EncodeBytes b) = (3 - b.length % 3) % 3 := by
  intro b
  induction b using b64EncodeBytes.induct with
  | case1 => rfl
  | case2 b1 =>
    simp only [b64EncodeBytes, b64PadLen, List.reverse_cons, List.reverse_nil]
    rfl
  | case3 b1 b2 =>
    have n3 := sixbitToChar_ne_pad (b2 % 16 * 4) (by omega)
    simp only [b64EncodeBytes, b64PadLen, List.reverse_cons, List.reverse_nil, List.nil_append,
      List.cons_append, List.append_assoc]
    rw [b64PadOfRev_one _ _ n3]
    rfl
  | case4 b1 b2 b3 rest ih =>
    rcases rest with _ | ⟨r, rs⟩
    · have n4 := sixbitToChar_ne_pad (b3 % 64) (by omega)
      simp only [b64EncodeBytes, b64PadLen, List.reverse_cons, List.reverse_nil, List.nil_append,
        List.cons_append, List.append_assoc]
      rw [b64PadOfRev_zero _ _ n4]
      simp
    · have hlen : 2 ≤ (b64EncodeBytes (r :: rs)).reverse.length := by
        rw [List.length_reverse, b64EncodeBytes_length]
        simp only [List.length_cons]
        omega
      rcases hrev : (b64EncodeBytes (r :: rs)).reverse with _ | ⟨x, _ | ⟨y, zs⟩⟩
      · rw [hrev] at hlen; simp at hlen
      · rw [hrev] at hlen; simp at hlen
      · have hsplit : b64PadLen (b64EncodeBytes (b1 :: b2 :: b3 :: r :: rs))
            = b64PadOfRev (x :: y :: (zs ++
              [sixbitToChar (b3 % 64), sixbitToChar (b2 % 16 * 4 + b3 / 64),
               sixbitToChar (b1 % 4 * 16 + b2 / 16), sixbitToChar (b1 / 4)])) := by
          simp only [b64EncodeBytes, b64PadLen, List.reverse_cons, List.append_assoc]
          rw [show (b64EncodeBytes (r :: rs)).reverse = x :: y :: zs from hrev]
          rfl
        rw [hsplit, b64PadOfRev_cons2 x y _ zs]
        have : b64PadOfRev (x :: y :: zs) = b64PadLen (b64EncodeBytes (r :: rs)) := by
          rw [b64PadLen, hrev]
        rw [this, ih]
        simp only [List.length_cons]
        omega

/-- C9: decoding the standard base64 encoding of any byte array returns
exactly the original bytes with the original length (the source decoder is
a left inverse of standard padded base64 encoding). -/
theorem C9_base64_decode_roundtrip (b : List Nat) (hb : ∀ x ∈ b, x < 256) :
    BASE64_TO_BYTES (b64EncodeBytes b) = b
      ∧ (BASE64_TO_BYTES (b64EncodeBytes b)).length = b.length := by
  have hbl : (b64EncodeBytes b).length * 3 / 4 - b64PadLen (b64EncodeBytes b) = b.length := by
    rw [b64EncodeBytes_length, b64PadLen_encode]
    omega
  have hmain : BASE64_TO_BYTES (b64EncodeBytes b) = b := by
    unfold BASE64_TO_BYTES
    rw [hbl, b64DecodeGroups_encode b hb]
    exact List.take_left b (List.replicate b.length 0)
  exact ⟨hmain, by rw [hmain]⟩

theorem C9_base64_decode_roundtrip_witness :
    (∀ x ∈ [0, 1, 77, 128, 255, 42], x < 256)
      ∧ BASE64_TO_BYTES (b64EncodeBytes [0, 1, 77, 128, 255, 42]) = [0, 1, 77, 128, 255, 42] := by
  exact ⟨by decide, (C9_base64_decode_roundtrip [0, 1, 77, 128, 255, 42] (by decide)).1⟩


/-! ## Theorems: resend buffer capacity (claim C5) -/

theorem mapSet_fresh (m : List (Nat × ResendEntry)) (k : Nat) (v : ResendEntry)
    (h : ∀ p ∈ m, p.1 ≠ k) : mapSet m k v = m ++ [(k, v)] := by
  unfold mapSet
  rw [if_neg]
  simp only [List.any_eq_true, beq_iff_eq, not_exists]
  intro p hp
  exact h p hp.1 hp.2

theorem mapDelete_cons_self (hd : Nat × ResendEntry) (t : List (Nat × ResendEntry))
    (hnot : ∀ p ∈ t, p.1 ≠ hd.1) : mapDelete (hd :: t) hd.1 = t := by
  unfold mapDelete
  rw [List.filter_cons]
  simp only [beq_self_eq_true, Bool.not_true, Bool.false_eq_true, if_false]
  exact List.filter_eq_self.mpr (fun p hp => by
    simp only [Bool.not_eq_true', beq_eq_false_iff_ne]
    exact hnot p hp)

theorem put_lastN (pre : List (Nat × ResendEntry)) (k : Nat) (v : ResendEntry)
    (hnodup : (pre.map Prod.fst).Nodup) (hfresh : ∀ p ∈ pre, p.1 ≠ k) :
    RESEND_BUFFER_PUT (lastN RESEND_BUFFER_SIZE pre) k v
      = lastN RESEND_BUFFER_SIZE (pre ++ [(k, v)]) := by
  have h128 : RESEND_BUFFER_SIZE = 128 := rfl
  have hsub : List.Sublist (lastN RESEND_BUFFER_SIZE pre) pre := List.drop_sublist _ _
  have hfresh2 : ∀ p ∈ lastN RESEND_BUFFER_SIZE pre, p.1 ≠ k :=
    fun p hp => hfresh p (hsub.mem hp)
  by_cases hL : pre.length ≤ RESEND_BUFFER_SIZE - 1
  · have hdropz : lastN RESEND_BUFFER_SIZE pre = pre := by
      unfold lastN
      rw [show pre.length - RESEND_BUFFER_SIZE = 0 by omega, List.drop_zero]
    unfold RESEND_BUFFER_PUT
    rw [mapSet_fresh _ _ _ hfresh2, hdropz, if_neg]
    · unfold lastN
      rw [show (pre ++ [(k, v)]).length - RESEND_BUFFER_SIZE = 0 by
            simp only [List.length_append, List.length_cons, List.length_nil]; omega]
      rw [List.drop_zero]
    · simp only [List.length_append, List.length_cons, List.length_nil, not_lt]
      omega
  · have hL2 : RESEND_BUFFER_SIZE ≤ pre.length := by omega
    obtain ⟨p0, t0, hd⟩ : ∃ p0 t0, lastN RESEND_BUFFER_SIZE pre = p0 :: t0 := by
      have hlen : (lastN RESEND_BUFFER_SIZE pre).length = RESEND_BUFFER_SIZE := by
        unfold lastN
        rw [List.length_drop]
        omega
      rcases h' : lastN RESEND_BUFFER_SIZE pre with _ | ⟨a, b⟩
      · rw [h'] at hlen
        simp [h128] at hlen
      · exact ⟨a, b, rfl⟩
    have hlen0 : (p0 :: t0).length = RESEND_BUFFER_SIZE := by
      rw [← hd]
      unfold lastN
      rw [List.length_drop]
      omega
    have hnd : (p0.1 :: t0.map Prod.fst).Nodup := by
      have hnd0 : ((p0 :: t0).map Prod.fst).Nodup := by
        rw [← hd]
        exact hnodup.sublist (hsub.map Prod.fst)
      simpa using hnd0
    have hkne : k ≠ p0.1 := by
      have hp0 : p0 ∈ lastN RESEND_BUFFER_SIZE pre := by
        rw [hd]
        exact List.mem_cons_self _ _
      exact fun he => (hfresh2 p0 hp0) he.symm
    have hnot : ∀ p ∈ t0 ++ [(k, v)], p.1 ≠ p0.1 := by
      intro p hp
      rcases List.mem_append.mp hp with h1 | h2
      · intro he
        have hmem : p.1 ∈ t0.map Prod.fst := List.mem_map_of_mem Prod.fst h1
        rw [he] at hmem
        exact (List.nodup_cons.mp hnd).1 hmem
      · simp only [List.mem_singleton] at h2
        subst h2
        simpa using hkne
    have ht0 : pre.drop ((pre.length - RESEND_BUFFER_SIZE) + 1) = t0 := by
      unfold lastN at hd
      rw [← List.drop_drop, hd]
      rfl
    unfold RESEND_BUFFER_PUT
    rw [mapSet_fresh _ _ _ hfresh2, hd]
    simp only [List.cons_append]
    rw [if_pos (by
      simp only [List.length_cons, List.length_append, List.length_nil]
      simp only [List.length_cons] at hlen0
      omega)]
    rw [mapDelete_cons_self p0 (t0 ++ [(k, v)]) hnot]
    unfold lastN
    rw [show (pre ++ [(k, v)]).length - RESEND_BUFFER_SIZE
          = (pre.length - RESEND_BUFFER_SIZE) + 1 by
        simp only [List.length_append, List.length_cons, List.length_nil]
        omega]
    rw [List.drop_append_of_le_length (by omega), ht0]

theorem foldl_put_lastN (xs : List (Nat × ResendEntry)) :
    ∀ pre : List (Nat × ResendEntry), ((pre ++ xs).map Prod.fst).Nodup →
      xs.foldl (fun m p => RESEND_BUFFER_PUT m p.1 p.2) (lastN RESEND_BUFFER_SIZE pre)
        = lastN RESEND_BUFFER_SIZE (pre ++ xs) := by
  induction xs with
  | nil =>
    intro pre _
    simp
  | cons x xs ih =>
    intro pre hnodup
    have hpre_nodup : (pre.map Prod.fst).Nodup := by
      have hsl : List.Sublist (pre.map Prod.fst) ((pre ++ (x :: xs)).map Prod.fst) :=
        (List.sublist_append_left pre (x :: xs)).map Prod.fst
      exact hnodup.sublist hsl
    have hfresh : ∀ p ∈ pre, p.1 ≠ x.1 := by
      intro p hp he
      have hmapnd : ((pre.map Prod.fst) ++ ((x :: xs).map Prod.fst)).Nodup := by
        simpa [List.map_append] using hnodup
      have hdisj := (List.nodup_append.mp hmapnd).2.2
      exact hdisj (List.mem_map_of_mem Prod.fst hp) (by simp [he])
    simp only [List.foldl_cons]
    rw [put_lastN pre x.1 x.2 hpre_nodup hfresh]
    have hx : (x.1, x.2) = x := rfl
    rw [hx]
    have := ih (pre ++ [x]) (by simpa using hnodup)
    rw [List.append_assoc] at this
    simpa using this

/-- C5: the resend buffer never holds more than 128 entries — after
inserting more than 128 entries with pairwise distinct keys into the empty
buffer, exactly 128 remain, and they are the most recently inserted 128 in
insertion order (the oldest entry is evicted first on each overflow). -/
theorem C5_resend_buffer_capacity (inserts : List (Nat × ResendEntry))
    (hnodup : (inserts.map Prod.fst).Nodup)
    (hlen : RESEND_BUFFER_SIZE < inserts.length) :
    (inserts.foldl (fun m p => RESEND_BUFFER_PUT m p.1 p.2) []).length = RESEND_BUFFER_SIZE
      ∧ inserts.foldl (fun m p => RESEND_BUFFER_PUT m p.1 p.2) []
          = inserts.drop (inserts.length - RESEND_BUFFER_SIZE) := by
  have h := foldl_put_lastN inserts [] (by simpa using hnodup)
  simp only [List.nil_append] at h
  have hempty : lastN RESEND_BUFFER_SIZE ([] : List (Nat × ResendEntry)) = [] := rfl
  rw [hempty] at h
  refine ⟨?_, by rw [h]; rfl⟩
  rw [h]
  unfold lastN
  rw [List.length_drop]
  omega

/-- Witness for C5 at 129 distinct-key insertions. -/
theorem C5_resend_buffer_capacity_witness :
    ((((List.range 129).map
        (fun i => (i, ({ header := { FRAME_DURATION_IN_MS := 250 }, bytes := [] }
          : ResendEntry)))).map Prod.fst).Nodup
      ∧ RESEND_BUFFER_SIZE < 129)
      ∧ (((List.range 129).map
          (fun i => (i, ({ header := { FRAME_DURATION_IN_MS := 250 }, bytes := [] }
            : ResendEntry)))).foldl (fun m p => RESEND_BUFFER_PUT m p.1 p.2) []).length
        = RESEND_BUFFER_SIZE := by
  refine ⟨⟨?_, by decide⟩, ?_⟩
  · simp only [List.map_map]
    exact List.Nodup.map (fun a b h => h) (List.nodup_range 129)
  · refine (C5_resend_buffer_capacity _ ?_ (by simp [RESEND_BUFFER_SIZE])).1
    simp only [List.map_map]
    exact List.Nodup.map (fun a b h => h) (List.nodup_range 129)

/-! ## Theorems: tick loop frame numbering (claims C1 and C2) -/

theorem TICK_noop_of_guard (F : Nat) (recId : String) (s : StreamState) (inp : TickInput)
    (hg : ¬(s.STREAMING = true ∧ s.wsReady = true)) :
    TICK F recId s inp = { state := s, sent := none, deletes := 0 } := by
  unfold TICK
  rw [if_pos hg]

theorem TICK_noop_of_no_capture (F : Nat) (recId : String) (s : StreamState) (inp : TickInput)
    (hc : inp.captured = none) :
    TICK F recId s inp = { state := s, sent := none, deletes := 0 } := by
  unfold TICK
  rw [hc]
  split
  · rfl
  · rfl

theorem TICK_noop_of_decode_throw (F : Nat) (recId : String) (s : StreamState) (inp : TickInput)
    (bs : List Nat) (hc : inp.captured = some bs) (hd : inp.decodeThrows = true) :
    TICK F recId s inp = { state := s, sent := none, deletes := 0 } := by
  unfold TICK
  rw [hc]
  split
  · rfl
  · simp [hd]

theorem TICK_send (F : Nat) (recId : String) (s : StreamState) (bs : List Nat)
    (hg : s.STREAMING = true ∧ s.wsReady = true) (hb : s.BOUNDARY_SENT = true) :
    TICK F recId s { captured := some bs, decodeThrows := false, sendThrows := false }
      = { state := { s with
            FRAME_NO := s.FRAME_NO + 1
            RESEND_BUFFER := RESEND_BUFFER_PUT s.RESEND_BUFFER s.FRAME_NO
              { header := { FRAME_DURATION_IN_MS := F }, bytes := bs } },
          sent := some (SEND_FRAME_PAIR recId s.FRAME_NO F bs),
          deletes := 1 } := by
  unfold TICK
  rw [if_neg (by simpa using hg)]
  simp only [hb]
  rw [if_neg (by simp)]
  rw [if_neg (by simp)]
  rw [if_neg (by simp)]
  rw [if_neg (by simp)]
  simp [hb]

theorem TICK_countdown (F : Nat) (recId : String) (s : StreamState) (bs : List Nat) (st : Bool)
    (hg : s.STREAMING = true ∧ s.wsReady = true) (hb : s.BOUNDARY_SENT = false)
    (hcd : 0 < s.COUNTDOWN_REMAINING_MS) :
    TICK F recId s { captured := some bs, decodeThrows := false, sendThrows := st }
      = { state :=
            if s.COUNTDOWN_REMAINING_MS - F ≤ 0 then
              { s with
                COUNTDOWN_REMAINING_MS := s.COUNTDOWN_REMAINING_MS - F
                BOUNDARY_SENT := true
                FRAME_NO := 1 }
            else { s with COUNTDOWN_REMAINING_MS := s.COUNTDOWN_REMAINING_MS - F },
          sent := none,
          deletes := 1 } := by
  unfold TICK
  rw [if_neg (by simpa using hg)]
  simp only []
  rw [if_neg (by simp)]
  rw [if_pos ⟨hb, hcd⟩]

theorem runTicks_boundary (F : Nat) (recId : String) :
    ∀ (inputs : List TickInput) (s : StreamState),
      s.BOUNDARY_SENT = true → (∀ inp ∈ inputs, inp.sendThrows = false) →
      (runTicks F recId s inputs).1.BOUNDARY_SENT = true
      ∧ ((runTicks F recId s inputs).2).map (fun f => f.frameNo)
          = List.range' s.FRAME_NO ((runTicks F recId s inputs).2).length
      ∧ (∀ f ∈ (runTicks F recId s inputs).2, f.header.FRAME_NO = toString f.frameNo) := by
  intro inputs
  induction inputs with
  | nil =>
    intro s hb _
    exact ⟨hb, by simp [runTicks], by simp [runTicks]⟩
  | cons inp rest ih =>
    intro s hb hs
    have hs1 : inp.sendThrows = false := hs inp (by simp)
    have hsr : ∀ i ∈ rest, i.sendThrows = false := fun i hi => hs i (by simp [hi])
    obtain ⟨cap, dt, st⟩ := inp
    simp only at hs1
    subst hs1
    by_cases hg : s.STREAMING = true ∧ s.wsReady = true
    · rcases cap with _ | bs
      · have ht := TICK_noop_of_no_capture F recId s
          { captured := none, decodeThrows := dt, sendThrows := false } rfl
        simp only [runTicks, ht, Option.toList_none, List.nil_append]
        exact ih s hb hsr
      · rcases dt with _ | _
        · have ht := TICK_send F recId s bs hg hb
          simp only [runTicks, ht, Option.toList_some, List.cons_append, List.nil_append]
          set s2 : StreamState := { s with
            FRAME_NO := s.FRAME_NO + 1
            RESEND_BUFFER := RESEND_BUFFER_PUT s.RESEND_BUFFER s.FRAME_NO
              { header := { FRAME_DURATION_IN_MS := F }, bytes := bs } } with hs2
          have hrec := ih s2 (by rw [hs2]; simpa using hb) hsr
          refine ⟨hrec.1, ?_, ?_⟩
          · simp only [List.map_cons, List.length_cons, List.range'_succ]
            have hfn : s2.FRAME_NO = s.FRAME_NO + 1 := by rw [hs2]
            rw [← hfn, hrec.2.1]
            simp [SEND_FRAME_PAIR]
          · intro f hf
            rcases List.mem_cons.mp hf with h1 | h2
            · rw [h1]
              rfl
            · exact hrec.2.2 f h2
        · have ht := TICK_noop_of_decode_throw F recId s
            { captured := some bs, decodeThrows := true, sendThrows := false } bs rfl rfl
          simp only [runTicks, ht, Option.toList_none, List.nil_append]
          exact ih s hb hsr
    · have ht := TICK_noop_of_guard F recId s
        { captured := cap, decodeThrows := dt, sendThrows := false } hg
      simp only [runTicks, ht, Option.toList_none, List.nil_append]
      exact ih s hb hsr

theorem runTicks_pre (F : Nat) (recId : String) :
    ∀ (inputs : List TickInput) (s : StreamState),
      s.BOUNDARY_SENT = false → 0 < s.COUNTDOWN_REMAINING_MS →
      (∀ inp ∈ inputs, inp.sendThrows = false) →
      ((runTicks F recId s inputs).2).map (fun f => f.frameNo)
          = List.range' 1 ((runTicks F recId s inputs).2).length
      ∧ (∀ f ∈ (runTicks F recId s inputs).2, f.header.FRAME_NO = toString f.frameNo) := by
  intro inputs
  induction inputs with
  | nil =>
    intro s hb hcd hs
    exact ⟨by simp [runTicks], by simp [runTicks]⟩
  | cons inp rest ih =>
    intro s hb hcd hs
    have hs1 : inp.sendThrows = false := hs inp (by simp)
    have hsr : ∀ i ∈ rest, i.sendThrows = false := fun i hi => hs i (by simp [hi])
    obtain ⟨cap, dt, st⟩ := inp
    simp only at hs1
    subst hs1
    by_cases hg : s.STREAMING = true ∧ s.wsReady = true
    · rcases cap with _ | bs
      · have ht := TICK_noop_of_no_capture F recId s
          { captured := none, decodeThrows := dt, sendThrows := false } rfl
        simp only [runTicks, ht, Option.toList_none, List.nil_append]
        exact ih s hb hcd hsr
      · rcases dt with _ | _
        · have ht := TICK_countdown F recId s bs false hg hb hcd
          by_cases hcd2 : s.COUNTDOWN_REMAINING_MS - F ≤ 0
          · rw [if_pos hcd2] at ht
            simp only [runTicks, ht, Option.toList_none, List.nil_append]
            have hrun := runTicks_boundary F recId rest
              { s with
                COUNTDOWN_REMAINING_MS := s.COUNTDOWN_REMAINING_MS - F
                BOUNDARY_SENT := true
                FRAME_NO := 1 } rfl hsr
            exact ⟨hrun.2.1, hrun.2.2⟩
          · rw [if_neg hcd2] at ht
            simp only [runTicks, ht, Option.toList_none, List.nil_append]
            exact ih { s with COUNTDOWN_REMAINING_MS := s.COUNTDOWN_REMAINING_MS - F }
              (by simpa using hb) (by simp; omega) hsr
        · have ht := TICK_noop_of_decode_throw F recId s
            { captured := some bs, decodeThrows := true, sendThrows := false } bs rfl rfl
          simp only [runTicks, ht, Option.toList_none, List.nil_append]
          exact ih s hb hcd hsr
    · have ht := TICK_noop_of_guard F recId s
        { captured := cap, decodeThrows := dt, sendThrows := false } hg
      simp only [runTicks, ht, Option.toList_none, List.nil_append]
      exact ih s hb hcd hsr

theorem startRun_map_frameNo (countdownBeats bpm F : Nat) (recId : String)
    (inputs : List TickInput) (hsend : ∀ inp ∈ inputs, inp.sendThrows = false) :
    ((runTicks F recId (startState countdownBeats bpm) inputs).2).map (fun f => f.frameNo)
        = List.range' 1 ((runTicks F recId (startState countdownBeats bpm) inputs).2).length
      ∧ (∀ f ∈ (runTicks F recId (startState countdownBeats bpm) inputs).2,
          f.header.FRAME_NO = toString f.frameNo) := by
  by_cases h0 : initialCountdownMs countdownBeats bpm = 0
  · have hb : (startState countdownBeats bpm).BOUNDARY_SENT = true := by
      simp [startState, h0]
    have hfn : (startState countdownBeats bpm).FRAME_NO = 1 := rfl
    have hrun := runTicks_boundary F recId inputs (startState countdownBeats bpm) hb hsend
    exact ⟨hfn ▸ hrun.2.1, hrun.2.2⟩
  · have hge : 0 ≤ initialCountdownMs countdownBeats bpm := le_max_left 0 _
    have hbs : (startState countdownBeats bpm).BOUNDARY_SENT = false := by
      simp only [startState]
      simpa using h0
    have hcd : 0 < (startState countdownBeats bpm).COUNTDOWN_REMAINING_MS := by
      simp only [startState]
      omega
    exact runTicks_pre F recId inputs (startState countdownBeats bpm) hbs hcd hsend

theorem startRun_frame_numbering (countdownBeats bpm F : Nat) (recId : String)
    (inputs : List TickInput) (hsend : ∀ inp ∈ inputs, inp.sendThrows = false) :
    ((runTicks F recId (startState countdownBeats bpm) inputs).2).map
        (fun f => f.header.FRAME_NO)
      = (List.range' 1 ((runTicks F recId (startState countdownBeats bpm) inputs).2).length).map
          toString := by
  have hmain := startRun_map_frameNo countdownBeats bpm F recId inputs hsend
  have hcong : ((runTicks F recId (startState countdownBeats bpm) inputs).2).map
        (fun f => f.header.FRAME_NO)
      = ((runTicks F recId (startState countdownBeats bpm) inputs).2).map
        (fun f => toString f.frameNo) :=
    List.map_congr_left (fun f hf => hmain.2 f hf)
  rw [hcong, ← hmain.1, List.map_map]
  rfl

/-- C1: in any session started with any countdown parameters, over any
schedule of tick environments in which the send step does not throw, the
transmitted FRAME messages carry the frame-number strings 1, 2, 3, ... in
order — the first transmitted frame is numbered 1 and each subsequent
transmitted frame's number is exactly one greater, with no gaps and no
duplicates, however many countdown slices were discarded first. -/
theorem C1_frame_numbering (countdownBeats bpm F : Nat) (recId : String)
    (inputs : List TickInput) (hsend : ∀ inp ∈ inputs, inp.sendThrows = false) :
    ((runTicks F recId (startState countdownBeats bpm) inputs).2).map
        (fun f => f.header.FRAME_NO)
      = (List.range' 1 ((runTicks F recId (startState countdownBeats bpm) inputs).2).length).map
          toString :=
  startRun_frame_numbering countdownBeats bpm F recId inputs hsend

/-- Witness for C1 at a two-frame session with no countdown. -/
theorem C1_frame_numbering_witness :
    (∀ inp ∈ goodInputs [[1], [2]], inp.sendThrows = false)
      ∧ ((runTicks 250 "r" (startState 0 60) (goodInputs [[1], [2]])).2).map
          (fun f => f.header.FRAME_NO)
        = (List.range' 1
            ((runTicks 250 "r" (startState 0 60) (goodInputs [[1], [2]])).2).length).map
            toString :=
  ⟨by decide, C1_frame_numbering 0 60 250 "r" (goodInputs [[1], [2]]) (by decide)⟩

theorem discardCount_pos (F : Nat) (cd : Int) (h : 0 < cd) (hF : 0 < F) :
    discardCount F cd = discardCount F (cd - F) + 1 := by
  rw [discardCount]
  rw [dif_pos ⟨h, hF⟩]

theorem discardCount_nonpos (F : Nat) (cd : Int) (h : ¬(0 < cd ∧ 0 < F)) :
    discardCount F cd = 0 := by
  rw [discardCount]
  rw [dif_neg h]

theorem runTicks_good_boundary_length (F : Nat) (recId : String) :
    ∀ (payloads : List (List Nat)) (s : StreamState),
      s.STREAMING = true ∧ s.wsReady = true → s.BOUNDARY_SENT = true →
      (runTicks F recId s (goodInputs payloads)).2.length = payloads.length := by
  intro payloads
  induction payloads with
  | nil =>
    intro s _ _
    simp [goodInputs, runTicks]
  | cons bs payloads ih =>
    intro s hg hb
    have ht := TICK_send F recId s bs hg hb
    simp only [goodInputs, List.map_cons, runTicks, ht, Option.toList_some, List.cons_append,
      List.nil_append, List.length_cons]
    have := ih { s with
      FRAME_NO := s.FRAME_NO + 1
      RESEND_BUFFER := RESEND_BUFFER_PUT s.RESEND_BUFFER s.FRAME_NO
        { header := { FRAME_DURATION_IN_MS := F }, bytes := bs } }
      (by simpa using hg) (by simpa using hb)
    simp only [goodInputs] at this
    rw [this]

theorem runTicks_good_pre (F : Nat) (recId : String) (hF : 0 < F) :
    ∀ (payloads : List (List Nat)) (s : StreamState),
      s.STREAMING = true ∧ s.wsReady = true →
      s.BOUNDARY_SENT = false → 0 < s.COUNTDOWN_REMAINING_MS →
      (runTicks F recId s (goodInputs payloads)).2.length
          = payloads.length - discardCount F s.COUNTDOWN_REMAINING_MS
      ∧ (payloads.length ≤ discardCount F s.COUNTDOWN_REMAINING_MS →
          (runTicks F recId s (goodInputs payloads)).2 = []
          ∧ (runTicks F recId s (goodInputs payloads)).1.RESEND_BUFFER = s.RESEND_BUFFER) := by
  intro payloads
  induction payloads with
  | nil =>
    intro s hg hb hcd
    refine ⟨by simp [goodInputs, runTicks], fun _ => ⟨by simp [goodInputs, runTicks], ?_⟩⟩
    simp [goodInputs, runTicks]
  | cons bs payloads ih =>
    intro s hg hb hcd
    have hD := discardCount_pos F s.COUNTDOWN_REMAINING_MS hcd hF
    have ht := TICK_countdown F recId s bs false hg hb hcd
    by_cases hcd2 : s.COUNTDOWN_REMAINING_MS - F ≤ 0
    · rw [if_pos hcd2] at ht
      have hD0 : discardCount F (s.COUNTDOWN_REMAINING_MS - F) = 0 :=
        discardCount_nonpos F _ (by omega)
      simp only [goodInputs, List.map_cons, runTicks, ht, Option.toList_none, List.nil_append]
      have hlen := runTicks_good_boundary_length F recId payloads
        { s with
          COUNTDOWN_REMAINING_MS := s.COUNTDOWN_REMAINING_MS - F
          BOUNDARY_SENT := true
          FRAME_NO := 1 } (by simpa using hg) rfl
      simp only [goodInputs] at hlen
      constructor
      · rw [hlen, hD, hD0]
        simp
      · intro hle
        rw [hD, hD0] at hle
        simp only [List.length_cons] at hle
        have : payloads = [] := by
          rcases payloads with _ | ⟨a, b⟩
          · rfl
          · simp at hle
        subst this
        exact ⟨by simp [runTicks], by simp [runTicks]⟩
    · rw [if_neg hcd2] at ht
      simp only [goodInputs, List.map_cons, runTicks, ht, Option.toList_none, List.nil_append]
      have hrec := ih { s with COUNTDOWN_REMAINING_MS := s.COUNTDOWN_REMAINING_MS - F }
        (by simpa using hg) (by simpa using hb) (by simp; omega)
      simp only [goodInputs] at hrec
      constructor
      · rw [hrec.1]
        simp only [List.length_cons, hD]
        omega
      · intro hle
        simp only [List.length_cons, hD] at hle
        exact hrec.2 (by omega)

theorem discardCount_eq_ceil (F : Nat) (hF : 0 < F) :
    ∀ (n : Nat) (cd : Int), cd.toNat = n → 0 ≤ cd →
      (discardCount F cd : ℤ) = ⌈(cd : ℚ) / (F : ℚ)⌉ := by
  intro n
  induction n using Nat.strong_induction_on with
  | _ n ih =>
    intro cd hn h0
    have hFq : (0 : ℚ) < F := by exact_mod_cast hF
    by_cases hpos : 0 < cd
    · rw [discardCount_pos F cd hpos hF]
      by_cases hle : cd ≤ F
      · have hz : discardCount F (cd - F) = 0 := discardCount_nonpos F _ (by omega)
        rw [hz]
        have hone : ⌈(cd : ℚ) / (F : ℚ)⌉ = 1 := by
          rw [Int.ceil_eq_iff]
          constructor
          · push_cast
            have hcdq : (0 : ℚ) < cd := by exact_mod_cast hpos
            have := div_pos hcdq hFq
            linarith
          · push_cast
            rw [div_le_one hFq]
            exact_mod_cast hle
        rw [hone]
        norm_num
      · have hrec := ih (cd - F).toNat (by omega) (cd - F) rfl (by omega)
        push_cast at hrec ⊢
        rw [hrec]
        have hstep : ((cd : ℚ) - F) / F = (cd : ℚ) / F - 1 := by
          field_simp
        rw [hstep, Int.ceil_sub_one]
        ring
    · have hz : cd = 0 := by omega
      subst hz
      rw [discardCount_nonpos F 0 (by omega)]
      simp

theorem ceil_round_div_tolerance (x : ℚ) (F : Nat) (hF : 0 < F) (hx : 0 ≤ x) :
    |⌈((max 0 (round x) : ℤ) : ℚ) / (F : ℚ)⌉ - ⌈x / (F : ℚ)⌉| ≤ 1 := by
  have hFq : (0 : ℚ) < F := by exact_mod_cast hF
  have h1F : (1 : ℚ) ≤ F := by exact_mod_cast hF
  have hr0 : 0 ≤ round x := by
    rw [round_eq]
    exact Int.floor_nonneg.mpr (by linarith)
  rw [max_eq_right hr0]
  have habs := abs_le.mp (abs_sub_round x)
  have hub : ((round x : ℤ) : ℚ) ≤ x + 1 / 2 := by linarith [habs.1]
  have hlb : x - 1 / 2 ≤ ((round x : ℤ) : ℚ) := by linarith [habs.2]
  have hhalf : (1 / 2 : ℚ) / F ≤ 1 := by
    rw [div_le_one hFq]
    linarith
  have hA : ⌈((round x : ℤ) : ℚ) / F⌉ ≤ ⌈x / (F : ℚ)⌉ + 1 := by
    have s1 : ⌈((round x : ℤ) : ℚ) / F⌉ ≤ ⌈(x + 1 / 2) / F⌉ :=
      Int.ceil_le_ceil ((div_le_div_right hFq).mpr hub)
    have s2 : ⌈(x + 1 / 2) / (F : ℚ)⌉ ≤ ⌈x / (F : ℚ) + 1⌉ := by
      apply Int.ceil_le_ceil
      rw [add_div]
      linarith
    rw [Int.ceil_add_one] at s2
    omega
  have hB : ⌈x / (F : ℚ)⌉ ≤ ⌈((round x : ℤ) : ℚ) / F⌉ + 1 := by
    have s1 : ⌈x / (F : ℚ)⌉ ≤ ⌈(((round x : ℤ) : ℚ) + 1 / 2) / F⌉ :=
      Int.ceil_le_ceil ((div_le_div_right hFq).mpr (by linarith))
    have s2 : ⌈(((round x : ℤ) : ℚ) + 1 / 2) / F⌉ ≤ ⌈((round x : ℤ) : ℚ) / F + 1⌉ := by
      apply Int.ceil_le_ceil
      rw [add_div]
      linarith
    rw [Int.ceil_add_one] at s2
    omega
  rw [abs_le]
  omega

theorem goodInputs_no_send_throw (payloads : List (List Nat)) :
    ∀ inp ∈ goodInputs payloads, inp.sendThrows = false := by
  intro inp hinp
  simp only [goodInputs, List.mem_map] at hinp
  obtain ⟨bs, _, rfl⟩ := hinp
  rfl

/-- C2: for every session started with countdownBeats B, bpm R and slice
length F, a run of capture-successful ticks discards exactly
discardCount F (initialCountdownMs B R) countdown slices before the first
frame is sent; running exactly that many slices transmits nothing and
leaves the resend buffer empty; the subsequent frames are numbered from
the string 1; the discard count equals the ceiling of the rounded
countdown over F, which is within one slice of ceil((B * 60000/R) / F). -/
theorem C2_countdown_discards (B bpm F : Nat) (recId : String) (payloads : List (List Nat))
    (hF : 0 < F)
    (hn : discardCount F (initialCountdownMs B bpm) ≤ payloads.length) :
    (runTicks F recId (startState B bpm) (goodInputs payloads)).2.length
        = payloads.length - discardCount F (initialCountdownMs B bpm)
      ∧ (runTicks F recId (startState B bpm)
          (goodInputs (payloads.take (discardCount F (initialCountdownMs B bpm))))).2 = []
      ∧ (runTicks F recId (startState B bpm)
          (goodInputs (payloads.take
            (discardCount F (initialCountdownMs B bpm))))).1.RESEND_BUFFER = []
      ∧ ((runTicks F recId (startState B bpm) (goodInputs payloads)).2).map
          (fun f => f.header.FRAME_NO)
        = (List.range' 1
            (payloads.length - discardCount F (initialCountdownMs B bpm))).map toString
      ∧ (discardCount F (initialCountdownMs B bpm) : ℤ)
          = ⌈((initialCountdownMs B bpm : ℤ) : ℚ) / (F : ℚ)⌉
      ∧ |(discardCount F (initialCountdownMs B bpm) : ℤ)
          - ⌈(B : ℚ) * MS_PER_BEAT bpm / (F : ℚ)⌉| ≤ 1 := by
  have hge : 0 ≤ initialCountdownMs B bpm := le_max_left 0 _
  have hceil : (discardCount F (initialCountdownMs B bpm) : ℤ)
      = ⌈((initialCountdownMs B bpm : ℤ) : ℚ) / (F : ℚ)⌉ :=
    discardCount_eq_ceil F hF (initialCountdownMs B bpm).toNat _ rfl hge
  have hx : (0 : ℚ) ≤ (B : ℚ) * MS_PER_BEAT bpm := by
    apply mul_nonneg (Nat.cast_nonneg B)
    unfold MS_PER_BEAT
    apply div_nonneg (by norm_num)
    exact le_trans zero_le_one (le_max_left 1 _)
  have htol : |(discardCount F (initialCountdownMs B bpm) : ℤ)
      - ⌈(B : ℚ) * MS_PER_BEAT bpm / (F : ℚ)⌉| ≤ 1 := by
    rw [hceil]
    exact ceil_round_div_tolerance ((B : ℚ) * MS_PER_BEAT bpm) F hF hx
  have hguard : (startState B bpm).STREAMING = true ∧ (startState B bpm).wsReady = true :=
    ⟨rfl, rfl⟩
  have hlen : (runTicks F recId (startState B bpm) (goodInputs payloads)).2.length
      = payloads.length - discardCount F (initialCountdownMs B bpm) := by
    by_cases h0 : initialCountdownMs B bpm = 0
    · have hb : (startState B bpm).BOUNDARY_SENT = true := by
        simp [startState, h0]
      have hD : discardCount F (initialCountdownMs B bpm) = 0 := by
        rw [h0]
        exact discardCount_nonpos F 0 (by omega)
      rw [hD, runTicks_good_boundary_length F recId payloads _ hguard hb]
      omega
    · have hbs : (startState B bpm).BOUNDARY_SENT = false := by
        simp only [startState]
        simpa using h0
      have hcd : 0 < (startState B bpm).COUNTDOWN_REMAINING_MS := by
        simp only [startState]
        omega
      exact (runTicks_good_pre F recId hF payloads _ hguard hbs hcd).1
  have htake : (runTicks F recId (startState B bpm)
        (goodInputs (payloads.take (discardCount F (initialCountdownMs B bpm))))).2 = []
      ∧ (runTicks F recId (startState B bpm)
          (goodInputs (payloads.take
            (discardCount F (initialCountdownMs B bpm))))).1.RESEND_BUFFER = [] := by
    by_cases h0 : initialCountdownMs B bpm = 0
    · have hD : discardCount F (initialCountdownMs B bpm) = 0 := by
        rw [h0]
        exact discardCount_nonpos F 0 (by omega)
      rw [hD]
      exact ⟨by simp [goodInputs, runTicks], by simp [goodInputs, runTicks, startState]⟩
    · have hbs : (startState B bpm).BOUNDARY_SENT = false := by
        simp only [startState]
        simpa using h0
      have hcd : 0 < (startState B bpm).COUNTDOWN_REMAINING_MS := by
        simp only [startState]
        omega
      have h := (runTicks_good_pre F recId hF
        (payloads.take (discardCount F (initialCountdownMs B bpm))) _ hguard hbs hcd).2
      have hlent : (payloads.take (discardCount F (initialCountdownMs B bpm))).length
          ≤ discardCount F (startState B bpm).COUNTDOWN_REMAINING_MS := by
        rw [List.length_take]
        simp only [startState]
        omega
      obtain ⟨hout, hbuf⟩ := h hlent
      exact ⟨hout, by rw [hbuf]; rfl⟩
  have hmap := startRun_frame_numbering B bpm F recId (goodInputs payloads)
    (goodInputs_no_send_throw payloads)
  rw [hlen] at hmap
  exact ⟨hlen, htake.1, htake.2, hmap, hceil, htol⟩

theorem initialCountdownMs_4_60 : initialCountdownMs 4 60 = 4000 := by
  unfold initialCountdownMs MS_PER_BEAT
  rw [show max 1 ((60 : ℕ) : ℚ) = 60 from max_eq_right (by norm_num)]
  rw [show ((4 : ℕ) : ℚ) * (60000 / 60) = ((4000 : ℤ) : ℚ) by norm_num, round_intCast]
  rfl

theorem discardCount_4000_250 : discardCount 250 4000 = 16 := by
  have h := discardCount_eq_ceil 250 (by norm_num) (4000 : Int).toNat 4000 rfl (by norm_num)
  rw [show (((4000 : ℤ) : ℚ)) / ((250 : ℕ) : ℚ) = ((16 : ℤ) : ℚ) by norm_num,
    Int.ceil_intCast] at h
  exact_mod_cast h

/-- Witness for C2 at the spec's concrete scenario: 4 beats at 60 bpm with
250ms slices gives a 4000ms countdown, 16 discarded slices, and the 17th
slice transmitted as frame 1. -/
theorem C2_countdown_discards_witness :
    initialCountdownMs 4 60 = 4000
    ∧ discardCount 250 (initialCountdownMs 4 60) = 16
    ∧ (0 < 250 ∧ discardCount 250 (initialCountdownMs 4 60)
        ≤ (List.replicate 17 ([0] : List Nat)).length)
    ∧ (runTicks 250 "r" (startState 4 60) (goodInputs (List.replicate 17 [0]))).2.length
        = 17 - discardCount 250 (initialCountdownMs 4 60)
    ∧ ((runTicks 250 "r" (startState 4 60) (goodInputs (List.replicate 17 [0]))).2).map
        (fun f => f.header.FRAME_NO)
      = (List.range' 1 (17 - discardCount 250 (initialCountdownMs 4 60))).map toString := by
  have h1 := initialCountdownMs_4_60
  have h2 : discardCount 250 (initialCountdownMs 4 60) = 16 := by
    rw [h1]
    exact discardCount_4000_250
  have happ := C2_countdown_discards 4 60 250 "r" (List.replicate 17 [0]) (by norm_num)
    (by rw [h2]; simp)
  refine ⟨h1, h2, ⟨by norm_num, by rw [h2]; simp⟩, ?_, ?_⟩
  · simpa using happ.1
  · simpa using happ.2.2.2.1

/-! ## Theorems: slice cleanup (claim C3), single-flight guards (claim C4),
session controller (claims C7 and C8) -/

/-- C3 evaluation: when the decode step throws, the tick reaches its catch
block without any deleteAsync call — the captured slice's storage artifact
is not deleted (the spec requires exactly one deletion on every exit path,
including the decode-throw path).  The same happens when the send step
throws after the countdown, while the non-throwing discard path and send
path each delete exactly once. -/
theorem C3_cleanup_skipped_on_throw :
    (TICK 250 "r"
      { STREAMING := true, wsReady := true, FRAME_NO := 1, COUNTDOWN_REMAINING_MS := 0,
        BOUNDARY_SENT := true, RESEND_BUFFER := [] }
      { captured := some [7], decodeThrows := true, sendThrows := false }).deletes = 0
    ∧ (TICK 250 "r"
        { STREAMING := true, wsReady := true, FRAME_NO := 1, COUNTDOWN_REMAINING_MS := 0,
          BOUNDARY_SENT := true, RESEND_BUFFER := [] }
        { captured := some [7], decodeThrows := false, sendThrows := true }).deletes = 0
    ∧ (TICK 250 "r"
        { STREAMING := true, wsReady := true, FRAME_NO := 1, COUNTDOWN_REMAINING_MS := 0,
          BOUNDARY_SENT := true, RESEND_BUFFER := [] }
        { captured := some [7], decodeThrows := false, sendThrows := false }).deletes = 1
    ∧ (TICK 250 "r"
        { STREAMING := true, wsReady := true, FRAME_NO := 1, COUNTDOWN_REMAINING_MS := 4000,
          BOUNDARY_SENT := false, RESEND_BUFFER := [] }
        { captured := some [7], decodeThrows := false, sendThrows := false }).deletes = 1 := by
  refine ⟨rfl, rfl, rfl, rfl⟩

/-- C4: at most one tick is pending at a time — arming while armed is a
no-op, so two reschedule requests from an unarmed scheduler schedule
exactly one timer; and a capture started while one is in progress returns
null without capturing. -/
theorem C4_single_flight_guards (s : SchedulerState) (r : RecorderState) (u : Option String) :
    ARM_NEXT (ARM_NEXT s) = ARM_NEXT s
    ∧ (s.nextTimeoutArmed = false →
        (ARM_NEXT (ARM_NEXT s)).scheduledCount = s.scheduledCount + 1)
    ∧ (r.isChunking = true → RECORD_MICRO_CHUNK r u = (r, none)) := by
  refine ⟨?_, ?_, ?_⟩
  · by_cases h : s.nextTimeoutArmed = true <;> simp [ARM_NEXT, h]
  · intro h
    simp [ARM_NEXT, h]
  · intro h
    unfold RECORD_MICRO_CHUNK
    rw [if_pos h]

/-- Witness for C4 from an unarmed scheduler and a busy recorder. -/
theorem C4_single_flight_guards_witness :
    (({ nextTimeoutArmed := false, scheduledCount := 0 } : SchedulerState).nextTimeoutArmed
        = false
      ∧ ({ isChunking := true, capturesTaken := 3 } : RecorderState).isChunking = true)
    ∧ (ARM_NEXT (ARM_NEXT { nextTimeoutArmed := false, scheduledCount := 0 })).scheduledCount
        = 0 + 1
    ∧ RECORD_MICRO_CHUNK { isChunking := true, capturesTaken := 3 } (some "file")
        = ({ isChunking := true, capturesTaken := 3 }, none) := by
  refine ⟨⟨rfl, rfl⟩, ?_, ?_⟩
  · exact (C4_single_flight_guards { nextTimeoutArmed := false, scheduledCount := 0 }
      { isChunking := true, capturesTaken := 3 } (some "file")).2.1 rfl
  · exact (C4_single_flight_guards { nextTimeoutArmed := false, scheduledCount := 0 }
      { isChunking := true, capturesTaken := 3 } (some "file")).2.2 rfl

/-- C7: an echo preflight failure is logged as a warning but does not
abort the start — the primary stream connection is still attempted, and
whenever it succeeds the session reaches the streaming state. -/
theorem C7_echo_preflight_best_effort (env : StartEnv)
    (hws : env.wsUrlOk = true) (hperm : env.audioPermOk = true)
    (hrec : env.recordingIdSet = true) (hechoUrl : env.echoUrlOk = true)
    (hecho : env.echoOk = false) (hstream : env.streamOk = true) :
    (START_STREAMING_WS false env).STREAMING = true
    ∧ (START_STREAMING_WS false env).attemptedStreamOpen = true
    ∧ (START_STREAMING_WS false env).echoFailureWarned = true := by
  unfold START_STREAMING_WS
  simp [hws, hperm, hrec, hechoUrl, hecho, hstream]

/-- Witness for C7 with a failing echo preflight and a succeeding primary
connection. -/
theorem C7_echo_preflight_best_effort_witness :
    (START_STREAMING_WS false
      { wsUrlOk := true, healthOk := false, audioPermOk := true, recordingIdSet := true,
        echoUrlOk := true, echoOk := false, streamOk := true }).STREAMING = true :=
  (C7_echo_preflight_best_effort
    { wsUrlOk := true, healthOk := false, audioPermOk := true, recordingIdSet := true,
      echoUrlOk := true, echoOk := false, streamOk := true }
    rfl rfl rfl rfl rfl rfl).1

/-- C8: START while a session is active is a no-op that performs none of
the start work and leaves the single session streaming; STOP while idle is
a no-op with no teardown and no error; a second STOP after any STOP leaves
the system idle with no teardown. -/
theorem C8_start_stop_idempotent (env : StartEnv) (b : Bool) :
    (START_STREAMING_WS true env).STREAMING = true
    ∧ (START_STREAMING_WS true env).attemptedStreamOpen = false
    ∧ (START_STREAMING_WS true env).echoFailureWarned = false
    ∧ (STOP_STREAMING_WS false).STREAMING = false
    ∧ (STOP_STREAMING_WS false).performedTeardown = false
    ∧ (STOP_STREAMING_WS (STOP_STREAMING_WS b).STREAMING).STREAMING = false
    ∧ (STOP_STREAMING_WS (STOP_STREAMING_WS b).STREAMING).performedTeardown = false := by
  refine ⟨rfl, rfl, rfl, rfl, rfl, ?_, ?_⟩ <;> rcases b with _ | _ <;> rfl

/-! ## Theorems: ACK-driven resend fidelity (claim C6) -/

theorem mem_mapSet (m : List (Nat × ResendEntry)) (k : Nat) (v : ResendEntry) :
    ∀ p ∈ mapSet m k v, p ∈ m ∨ p = (k, v) := by
  intro p hp
  unfold mapSet at hp
  split at hp
  · simp only [List.mem_map] at hp
    obtain ⟨q, hq, hpq⟩ := hp
    by_cases h : (q.1 == k) = true
    · rw [if_pos h] at hpq
      right
      exact hpq.symm
    · rw [if_neg h] at hpq
      left
      exact hpq ▸ hq
  · rcases List.mem_append.mp hp with h | h
    · left
      exact h
    · right
      simpa using h

theorem mem_RESEND_BUFFER_PUT (m : List (Nat × ResendEntry)) (k : Nat) (v : ResendEntry) :
    ∀ p ∈ RESEND_BUFFER_PUT m k v, p ∈ m ∨ p = (k, v) := by
  intro p hp
  unfold RESEND_BUFFER_PUT at hp
  simp only [] at hp
  have hsub : p ∈ mapSet m k v := by
    split at hp
    · split at hp
      · exact hp
      · unfold mapDelete at hp
        exact List.mem_of_mem_filter hp
    · exact hp
  exact mem_mapSet m k v p hsub

theorem RESEND_BUFFER_GET_mem (m : List (Nat × ResendEntry)) (k : Nat) (e : ResendEntry)
    (h : RESEND_BUFFER_GET m k = some e) : (k, e) ∈ m := by
  unfold RESEND_BUFFER_GET at h
  obtain ⟨p, hfind, hpe⟩ := Option.map_eq_some'.mp h
  have hmem := List.mem_of_find?_eq_some hfind
  have hkey := List.find?_some hfind
  obtain ⟨p1, p2⟩ := p
  simp only [beq_iff_eq] at hkey
  simp only at hpe
  subst hkey
  subst hpe
  exact hmem

theorem TICK_send_general (F : Nat) (recId : String) (s : StreamState) (bs : List Nat)
    (hg : s.STREAMING = true ∧ s.wsReady = true)
    (hncls : ¬(s.BOUNDARY_SENT = false ∧ 0 < s.COUNTDOWN_REMAINING_MS)) :
    TICK F recId s { captured := some bs, decodeThrows := false, sendThrows := false }
      = { state := { s with
            BOUNDARY_SENT := true
            FRAME_NO := s.FRAME_NO + 1
            RESEND_BUFFER := RESEND_BUFFER_PUT s.RESEND_BUFFER s.FRAME_NO
              { header := { FRAME_DURATION_IN_MS := F }, bytes := bs } },
          sent := some (SEND_FRAME_PAIR recId s.FRAME_NO F bs),
          deletes := 1 } := by
  unfold TICK
  rw [if_neg (by simpa using hg)]
  simp only []
  rw [if_neg (by simp)]
  rw [if_neg hncls]
  by_cases hb : s.BOUNDARY_SENT = false
  · rw [if_pos hb]
    rw [if_neg (by simp)]
  · rw [if_neg hb]
    rw [if_neg (by simp)]
    simp only [Bool.not_eq_false] at hb
    rw [hb]

theorem runTicks_buffer_entries (F : Nat) (recId : String) :
    ∀ (inputs : List TickInput) (s : StreamState) (sent0 : List SentFrame),
      (∀ inp ∈ inputs, inp.sendThrows = false) →
      (∀ p ∈ s.RESEND_BUFFER,
          SEND_FRAME_PAIR recId p.1 p.2.header.FRAME_DURATION_IN_MS p.2.bytes ∈ sent0) →
      ∀ p ∈ (runTicks F recId s inputs).1.RESEND_BUFFER,
        SEND_FRAME_PAIR recId p.1 p.2.header.FRAME_DURATION_IN_MS p.2.bytes
          ∈ sent0 ++ (runTicks F recId s inputs).2 := by
  intro inputs
  induction inputs with
  | nil =>
    intro s sent0 _ hinv p hp
    simp only [runTicks] at hp ⊢
    simpa using hinv p hp
  | cons inp rest ih =>
    intro s sent0 hsend hinv
    have hs1 : inp.sendThrows = false := hsend inp (by simp)
    have hsr : ∀ i ∈ rest, i.sendThrows = false := fun i hi => hsend i (by simp [hi])
    obtain ⟨cap, dt, st⟩ := inp
    simp only at hs1
    subst hs1
    by_cases hg : s.STREAMING = true ∧ s.wsReady = true
    · rcases cap with _ | bs
      · have ht := TICK_noop_of_no_capture F recId s
          { captured := none, decodeThrows := dt, sendThrows := false } rfl
        simp only [runTicks, ht, Option.toList_none, List.nil_append]
        exact ih s sent0 hsr hinv
      · rcases dt with _ | _
        · by_cases hcls : s.BOUNDARY_SENT = false ∧ 0 < s.COUNTDOWN_REMAINING_MS
          · have ht := TICK_countdown F recId s bs false hg hcls.1 hcls.2
            by_cases hcd2 : s.COUNTDOWN_REMAINING_MS - F ≤ 0
            · rw [if_pos hcd2] at ht
              simp only [runTicks, ht, Option.toList_none, List.nil_append]
              exact ih _ sent0 hsr (by intro p hp; exact hinv p hp)
            · rw [if_neg hcd2] at ht
              simp only [runTicks, ht, Option.toList_none, List.nil_append]
              exact ih _ sent0 hsr (by intro p hp; exact hinv p hp)
          · have ht := TICK_send_general F recId s bs hg hcls
            simp only [runTicks, ht, Option.toList_some, List.cons_append, List.nil_append]
            intro p hp
            have hrec := ih
              { s with
                BOUNDARY_SENT := true
                FRAME_NO := s.FRAME_NO + 1
                RESEND_BUFFER := RESEND_BUFFER_PUT s.RESEND_BUFFER s.FRAME_NO
                  { header := { FRAME_DURATION_IN_MS := F }, bytes := bs } }
              (sent0 ++ [SEND_FRAME_PAIR recId s.FRAME_NO F bs]) hsr ?hinv2 p hp
            · rw [List.append_assoc] at hrec
              simpa using hrec
            case hinv2 =>
              intro q hq
              rcases mem_RESEND_BUFFER_PUT s.RESEND_BUFFER s.FRAME_NO
                { header := { FRAME_DURATION_IN_MS := F }, bytes := bs } q hq with h1 | h2
              · exact List.mem_append_left _ (hinv q h1)
              · subst h2
                simp [SEND_FRAME_PAIR]
        · have ht := TICK_noop_of_decode_throw F recId s
            { captured := some bs, decodeThrows := true, sendThrows := false } bs rfl rfl
          simp only [runTicks, ht, Option.toList_none, List.nil_append]
          exact ih s sent0 hsr hinv
    · have ht := TICK_noop_of_guard F recId s
        { captured := cap, decodeThrows := dt, sendThrows := false } hg
      simp only [runTicks, ht, Option.toList_none, List.nil_append]
      exact ih s sent0 hsr hinv

/-- C6: for every inbound ACK listing missing frame numbers, each listed
number K present in the resend buffer is retransmitted with byte-for-byte
identical payload and identical header field values to the original
transmission of frame K; a number that is absent or evicted produces no
message and no error. -/
theorem C6_ack_resend_fidelity (B bpm F : Nat) (recId : String) (inputs : List TickInput)
    (hsend : ∀ inp ∈ inputs, inp.sendThrows = false) (K : Nat) :
    (RESEND_BUFFER_GET (runTicks F recId (startState B bpm) inputs).1.RESEND_BUFFER K = none →
      handleAckResend recId (runTicks F recId (startState B bpm) inputs).1.RESEND_BUFFER [K]
        = [])
    ∧ (∀ e : ResendEntry,
        RESEND_BUFFER_GET (runTicks F recId (startState B bpm) inputs).1.RESEND_BUFFER K
            = some e →
        handleAckResend recId (runTicks F recId (startState B bpm) inputs).1.RESEND_BUFFER [K]
            = [SEND_FRAME_PAIR recId K e.header.FRAME_DURATION_IN_MS e.bytes]
          ∧ SEND_FRAME_PAIR recId K e.header.FRAME_DURATION_IN_MS e.bytes
              ∈ (runTicks F recId (startState B bpm) inputs).2
          ∧ ∀ f ∈ (runTicks F recId (startState B bpm) inputs).2, f.frameNo = K →
              f = SEND_FRAME_PAIR recId K e.header.FRAME_DURATION_IN_MS e.bytes) := by
  constructor
  · intro hnone
    simp [handleAckResend, hnone]
  · intro e hsome
    have hpair := runTicks_buffer_entries F recId inputs (startState B bpm) [] hsend
      (by intro p hp; simp [startState] at hp) (K, e)
      (RESEND_BUFFER_GET_mem _ _ _ hsome)
    simp only [List.nil_append] at hpair
    refine ⟨by simp [handleAckResend, hsome], hpair, ?_⟩
    intro f hf hfk
    have hmap := (startRun_map_frameNo B bpm F recId inputs hsend).1
    have hnd : (((runTicks F recId (startState B bpm) inputs).2).map
        (fun f => f.frameNo)).Nodup := by
      rw [hmap]
      exact List.nodup_range' _ _
    have hinj := List.inj_on_of_nodup_map hnd
    exact hinj hf hpair (by rw [hfk]; rfl)

theorem initialCountdownMs_0_60 : initialCountdownMs 0 60 = 0 := by
  unfold initialCountdownMs MS_PER_BEAT
  rw [show ((0 : ℕ) : ℚ) * (60000 / max 1 ((60 : ℕ) : ℚ)) = ((0 : ℤ) : ℚ) by norm_num,
    round_intCast]
  rfl

theorem startState_0_60 : startState 0 60
    = { STREAMING := true, wsReady := true, FRAME_NO := 1, COUNTDOWN_REMAINING_MS := 0,
        BOUNDARY_SENT := true, RESEND_BUFFER := [] } := by
  unfold startState
  rw [initialCountdownMs_0_60]
  rfl

/-- Witness for C6: after sending frames 1 and 2, an ACK for missing frame
1 resends the original pair, and an ACK for absent frame 5 sends
nothing. -/
theorem C6_ack_resend_fidelity_witness :
    (∀ inp ∈ goodInputs [[7], [9]], inp.sendThrows = false)
    ∧ RESEND_BUFFER_GET
        (runTicks 250 "r" (startState 0 60) (goodInputs [[7], [9]])).1.RESEND_BUFFER 1
      = some { header := { FRAME_DURATION_IN_MS := 250 }, bytes := [7] }
    ∧ handleAckResend "r"
        (runTicks 250 "r" (startState 0 60) (goodInputs [[7], [9]])).1.RESEND_BUFFER [1]
      = [SEND_FRAME_PAIR "r" 1 250 [7]]
    ∧ RESEND_BUFFER_GET
        (runTicks 250 "r" (startState 0 60) (goodInputs [[7], [9]])).1.RESEND_BUFFER 5 = none
    ∧ handleAckResend "r"
        (runTicks 250 "r" (startState 0 60) (goodInputs [[7], [9]])).1.RESEND_BUFFER [5]
      = [] := by
  have hget : RESEND_BUFFER_GET
      (runTicks 250 "r" (startState 0 60) (goodInputs [[7], [9]])).1.RESEND_BUFFER 1
      = some { header := { FRAME_DURATION_IN_MS := 250 }, bytes := [7] } := by
    rw [startState_0_60]
    decide
  have hget5 : RESEND_BUFFER_GET
      (runTicks 250 "r" (startState 0 60) (goodInputs [[7], [9]])).1.RESEND_BUFFER 5
      = none := by
    rw [startState_0_60]
    decide
  refine ⟨by decide, hget, ?_, hget5, ?_⟩
  · exact ((C6_ack_resend_fidelity 0 60 250 "r" (goodInputs [[7], [9]]) (by decide) 1).2
      { header := { FRAME_DURATION_IN_MS := 250 }, bytes := [7] } hget).1
  · exact (C6_ack_resend_fidelity 0 60 250 "r" (goodInputs [[7], [9]]) (by decide) 5).1 hget5

/-! ## Theorems: connection opener settles exactly once (claim C10) -/

theorem wsOpenStep_of_settled (s : WsOpenState) (e : WsOpenEvent)
    (h : s.opened = true ∧ s.pollCleared = true ∧ s.timerCleared = true
      ∧ s.handlersDetached = true) :
    wsOpenStep s e = s := by
  obtain ⟨h1, h2, h3, h4⟩ := h
  cases e <;> simp [wsOpenStep, h1, h2, h3, h4]

theorem wsOpenRun_foldl_settled (es : List WsOpenEvent) :
    ∀ s : WsOpenState,
      s.opened = true ∧ s.pollCleared = true ∧ s.timerCleared = true
        ∧ s.handlersDetached = true →
      es.foldl wsOpenStep s = s := by
  induction es with
  | nil =>
    intro s _
    rfl
  | cons e es ih =>
    intro s h
    simp only [List.foldl_cons, wsOpenStep_of_settled s e h]
    exact ih s h

theorem wsOpenStep_preserves (s : WsOpenState) (e : WsOpenEvent)
    (h : s = wsOpenInit
      ∨ (s.opened = true ∧ s.pollCleared = true ∧ s.timerCleared = true
          ∧ s.handlersDetached = true ∧ s.settleCount = 1 ∧ s.result ≠ none)) :
    wsOpenStep s e = wsOpenInit
      ∨ ((wsOpenStep s e).opened = true ∧ (wsOpenStep s e).pollCleared = true
          ∧ (wsOpenStep s e).timerCleared = true ∧ (wsOpenStep s e).handlersDetached = true
          ∧ (wsOpenStep s e).settleCount = 1 ∧ (wsOpenStep s e).result ≠ none) := by
  rcases h with h | h
  · subst h
    cases e with
    | openEvt =>
      right
      simp [wsOpenStep, wsFinish, wsOpenInit]
    | messageEvt txt =>
      by_cases hc : (txt.startsWith "echo-server" || txt.startsWith "stream-server"
          || decide (0 < txt.length)) = true
      · right
        simp [wsOpenStep, wsFinish, wsOpenInit, hc]
      · left
        simp [wsOpenStep, wsOpenInit, hc]
    | pollFires rs =>
      rcases rs with _ | _
      · left
        simp [wsOpenStep, wsOpenInit]
      · right
        simp [wsOpenStep, wsFinish, wsOpenInit]
    | timeoutFires =>
      right
      simp [wsOpenStep, wsFinish, wsOpenInit]
    | closeEvt =>
      right
      simp [wsOpenStep, wsFinish, wsOpenInit]
  · rw [wsOpenStep_of_settled s e ⟨h.1, h.2.1, h.2.2.1, h.2.2.2.1⟩]
    right
    exact h

theorem wsOpenRun_inv (events : List WsOpenEvent) :
    wsOpenRun events = wsOpenInit
      ∨ ((wsOpenRun events).opened = true ∧ (wsOpenRun events).pollCleared = true
          ∧ (wsOpenRun events).timerCleared = true ∧ (wsOpenRun events).handlersDetached = true
          ∧ (wsOpenRun events).settleCount = 1 ∧ (wsOpenRun events).result ≠ none) := by
  unfold wsOpenRun
  suffices h : ∀ s : WsOpenState,
      (s = wsOpenInit
        ∨ (s.opened = true ∧ s.pollCleared = true ∧ s.timerCleared = true
            ∧ s.handlersDetached = true ∧ s.settleCount = 1 ∧ s.result ≠ none)) →
      (events.foldl wsOpenStep s = wsOpenInit
        ∨ ((events.foldl wsOpenStep s).opened = true
            ∧ (events.foldl wsOpenStep s).pollCleared = true
            ∧ (events.foldl wsOpenStep s).timerCleared = true
            ∧ (events.foldl wsOpenStep s).handlersDetached = true
            ∧ (events.foldl wsOpenStep s).settleCount = 1
            ∧ (events.foldl wsOpenStep s).result ≠ none)) by
    exact h wsOpenInit (Or.inl rfl)
  induction events with
  | nil =>
    intro s h
    exact h
  | cons e es ih =>
    intro s h
    simp only [List.foldl_cons]
    exact ih (wsOpenStep s e) (wsOpenStep_preserves s e h)

theorem wsOpenRun_opened_of_completion :
    ∀ events : List WsOpenEvent, (∃ e ∈ events, isCompletionSignal e = true) →
      (wsOpenRun events).opened = true := by
  intro events
  induction events with
  | nil =>
    intro h
    simp at h
  | cons e es ih =>
    intro h
    have hstep := wsOpenStep_preserves wsOpenInit e (Or.inl rfl)
    unfold wsOpenRun at ih ⊢
    simp only [List.foldl_cons]
    rcases hstep with hs | hs
    · rw [hs]
      rcases h with ⟨e0, he0, hc0⟩
      rcases List.mem_cons.mp he0 with he | he
      · subst he
        exfalso
        cases e0 with
        | openEvt => simp [wsOpenStep, wsFinish, wsOpenInit] at hs
        | messageEvt txt =>
          simp only [isCompletionSignal] at hc0
          simp [wsOpenStep, wsFinish, wsOpenInit, hc0] at hs
        | pollFires rs =>
          simp only [isCompletionSignal] at hc0
          subst hc0
          simp [wsOpenStep, wsFinish, wsOpenInit] at hs
        | timeoutFires => simp [wsOpenStep, wsFinish, wsOpenInit] at hs
        | closeEvt => simp [wsOpenStep, wsFinish, wsOpenInit] at hs
      · exact ih ⟨e0, he, hc0⟩
    · rw [wsOpenRun_foldl_settled es (wsOpenStep wsOpenInit e)
        ⟨hs.1, hs.2.1, hs.2.2.1, hs.2.2.2.1⟩]
      exact hs.1

/-- C10: over any sequence of platform events containing at least one
completion signal (open event, non-empty first message, poll observing an
open socket, timeout, or close), the opener's promise settles exactly
once; once settled the poll interval and the timeout timer are cleared,
and any further events change nothing — the settled result is final. -/
theorem C10_open_settles_once (events more : List WsOpenEvent)
    (hc : ∃ e ∈ events, isCompletionSignal e = true) :
    (wsOpenRun events).settleCount = 1
    ∧ (wsOpenRun events).result ≠ none
    ∧ (wsOpenRun events).pollCleared = true
    ∧ (wsOpenRun events).timerCleared = true
    ∧ wsOpenRun (events ++ more) = wsOpenRun events := by
  have hop := wsOpenRun_opened_of_completion events hc
  rcases wsOpenRun_inv events with h | h
  · rw [h] at hop
    simp [wsOpenInit] at hop
  · refine ⟨h.2.2.2.2.1, h.2.2.2.2.2, h.2.1, h.2.2.1, ?_⟩
    unfold wsOpenRun
    rw [List.foldl_append]
    exact wsOpenRun_foldl_settled more _ ⟨h.1, h.2.1, h.2.2.1, h.2.2.2.1⟩

/-- Witness for C10: the open event settles the promise and a later
timeout firing changes nothing. -/
theorem C10_open_settles_once_witness :
    (∃ e ∈ [WsOpenEvent.openEvt], isCompletionSignal e = true)
    ∧ (wsOpenRun [WsOpenEvent.openEvt]).settleCount = 1
    ∧ wsOpenRun ([WsOpenEvent.openEvt] ++ [WsOpenEvent.timeoutFires])
        = wsOpenRun [WsOpenEvent.openEvt] := by
  have h := C10_open_settles_once [WsOpenEvent.openEvt] [WsOpenEvent.timeoutFires]
    ⟨WsOpenEvent.openEvt, by simp, rfl⟩
  exact ⟨⟨WsOpenEvent.openEvt, by simp, rfl⟩, h.1, h.2.2.2.2⟩

end ViolinMVP
